import Mathlib

/-!
Shallow embedding of the `reddit/things.go` source file of `dboslee/go-reddit`.

Decoding is modelled on parsed JSON values (`Json` below) rather than raw
bytes; the byte-level parser of Go's `encoding/json` is standard-library
code outside this repository.  JSON numbers are modelled as integers: no
verified property depends on a fractional value (the only fractional wire
values, `upvote_ratio` and epoch timestamps, never influence control flow
in `things.go`).

Errors returned by `encoding/json` are modelled as `Except Unit _`: the
source only ever propagates an error value or `nil`, never inspects the
message, so error identity is irrelevant.  A Go function that can also
panic (index out of range) is modelled with `GoResult`, which has a third
outcome `fatal`.

Go's `encoding/json` field semantics embedded below, used by every struct
decoder:
* unknown object keys are ignored;
* decoding JSON `null` into a struct, string, bool or integer field is a
  no-op (the field keeps its current value), while decoding `null` into a
  pointer or slice field sets it to `nil`;
* a type mismatch on a known field yields an error for the whole decode;
* decoding any JSON value into a `json.RawMessage` field stores the raw
  value (so an explicit `null` is stored as the bytes `null`, distinct
  from an absent field which leaves the `RawMessage` `nil`).
-/

namespace Reddit

/-- JSON values as seen by Go's `encoding/json` after parsing.  Object
fields are kept as an ordered association list, mirroring the order in
which `encoding/json` streams the members of an object to a decoder. -/
inductive Json where
  | null
  | bool (b : Bool)
  | num (n : Int)
  | str (s : String)
  | arr (elems : List Json)
  | obj (fields : List (String × Json))
deriving Repr

/-- Outcome of a Go call that returns `(T, error)` but may also panic:
`ok` models a `nil` error, `err` a non-`nil` returned error, and `fatal` a
runtime panic (e.g. index out of range), which is process-fatal. -/
inductive GoResult (α : Type) where
  | ok (val : α)
  | err
  | fatal
deriving Repr, DecidableEq

@[simp] theorem Except.map_ok_eq {ε α β : Type} (f : α → β) (a : α) :
    (Except.ok a : Except ε α).map f = .ok (f a) := rfl

@[simp] theorem Except.map_error_eq {ε α β : Type} (f : α → β) (e : ε) :
    (Except.error e : Except ε α).map f = .error e := rfl

/-- Decoding a JSON value into a Go `string` field holding `cur`. -/
def getString (cur : String) : Json → Except Unit String
  | .str s => .ok s
  | .null => .ok cur
  | _ => .error ()

/-- Decoding a JSON value into a Go `bool` field holding `cur`. -/
def getBool (cur : Bool) : Json → Except Unit Bool
  | .bool b => .ok b
  | .null => .ok cur
  | _ => .error ()

/-- Decoding a JSON value into a Go `int` field holding `cur`. -/
def getInt (cur : Int) : Json → Except Unit Int
  | .num n => .ok n
  | .null => .ok cur
  | _ => .error ()

/-- Decoding a JSON value into a Go `*bool` field: `null` sets the
pointer to `nil`, a boolean allocates a value, anything else errors. -/
def getOptBool : Json → Except Unit (Option Bool)
  | .bool b => .ok (some b)
  | .null => .ok none
  | _ => .error ()

/-- Decoding a JSON value into a Go `*int` field. -/
def getOptInt : Json → Except Unit (Option Int)
  | .num n => .ok (some n)
  | .null => .ok none
  | _ => .error ()

/-- Modelled from the spec: `Timestamp` is defined outside the provided
source (`src/` holds only `things.go`); the spec treats it as an abstract
value type that decodes from a numeric epoch. -/
structure Timestamp where
  epoch : Int
deriving Repr, DecidableEq

/-- Modelled from the spec: `Timestamp` decodes from a numeric
(epoch-seconds) wire value and from nothing else. -/
def decodeTimestamp : Json → Except Unit Timestamp
  | .num n => .ok ⟨n⟩
  | _ => .error ()

/-- Modelled from the spec: a `Timestamp` re-encodes as its numeric epoch. -/
def marshalTimestamp (t : Timestamp) : Json := .num t.epoch

/-- Decoding a JSON value into a Go `*Timestamp` field: `null` sets the
pointer to `nil`, otherwise the custom `Timestamp` decode runs. -/
def getOptTimestamp : Json → Except Unit (Option Timestamp)
  | .null => .ok none
  | v => (decodeTimestamp v).map some

/-- Decoding one element of a JSON array into a Go `string` slice
element (a `null` element leaves the freshly-grown element zero). -/
def getStringElem : Json → Except Unit String
  | .str s => .ok s
  | .null => .ok ""
  | _ => .error ()

/-- Decoding a JSON value into a Go `[]string` field: `null` sets the
slice to `nil`, an array decodes element-wise, anything else errors. -/
def getStringList : Json → Except Unit (List String)
  | .null => .ok []
  | .arr xs => xs.mapM getStringElem
  | _ => .error ()

/-! Kind discriminators, from the `const` block of `things.go`. -/

def kindComment : String := "t1"
def kindAccount : String := "t2"
def kindPost : String := "t3"
def kindMessage : String := "t4"
def kindSubreddit : String := "t5"
def kindAward : String := "t6"
def kindListing : String := "Listing"
def kindKarmaList : String := "KarmaList"
def kindTrophyList : String := "TrophyList"
def kindUserList : String := "UserList"
def kindMore : String := "more"
def kindModAction : String := "modaction"

/-- `thing` is an entity on Reddit: a kind discriminator plus the raw
payload.  `data` is Go's `json.RawMessage`: `none` when the wire object
had no `data` member (a `nil` RawMessage), `some v` when the member was
present with value `v` (including `some .null` for an explicit `null`). -/
structure thing where
  kind : String
  data : Option Json
deriving Repr

/-- Zero value of `thing`, as produced by `new(thing)`. -/
def zeroThing : thing := ⟨"", none⟩

/-- The member loop of `encoding/json`'s object decoding: each object
member updates the value being built via `f`; the first member whose
decode fails aborts with its error. -/
def foldFields (f : α → String → Json → Except Unit α) (a : α) :
    List (String × Json) → Except Unit α
  | [] => .ok a
  | (k, v) :: rest =>
    match f a k v with
    | .error e => .error e
    | .ok a2 => foldFields f a2 rest

/-- One field-decoding step of the reflective `encoding/json` decode of a
`thing`: `kind` expects a string, `data` captures the raw value, every
other key is ignored. -/
def updateThingField (t : thing) (k : String) (v : Json) : Except Unit thing :=
  if k = "kind" then (getString t.kind v).map fun s => { t with kind := s }
  else if k = "data" then .ok { t with data := some v }
  else .ok t

/-- Reflective `encoding/json` decode of a single `thing` envelope. -/
def decodeThing : Json → Except Unit thing
  | .null => .ok zeroThing
  | .obj flds => foldFields updateThingField zeroThing flds
  | _ => .error ()

/-- Decode of the `[]thing` stage of `things.UnmarshalJSON`: each array
element must itself decode as a `thing`, or the whole decode errors. -/
def thingList : List Json → Except Unit (List thing)
  | [] => .ok []
  | x :: xs =>
    match decodeThing x with
    | .error e => .error e
    | .ok t =>
      match thingList xs with
      | .error e => .error e
      | .ok ts => .ok (t :: ts)

/-- `More` holds information used to retrieve additional comments omitted
from a base comment tree. -/
structure More where
  ID : String
  FullID : String
  ParentID : String
  Count : Int
  Depth : Int
  Children : List String
deriving Repr, DecidableEq

/-- Zero value of `More`. -/
def zeroMore : More := ⟨"", "", "", 0, 0, []⟩

/-- One field-decoding step of the reflective decode of a `More`. -/
def updateMoreField (m : More) (k : String) (v : Json) : Except Unit More :=
  if k = "id" then (getString m.ID v).map fun s => { m with ID := s }
  else if k = "name" then (getString m.FullID v).map fun s => { m with FullID := s }
  else if k = "parent_id" then (getString m.ParentID v).map fun s => { m with ParentID := s }
  else if k = "count" then (getInt m.Count v).map fun n => { m with Count := n }
  else if k = "depth" then (getInt m.Depth v).map fun n => { m with Depth := n }
  else if k = "children" then (getStringList v).map fun l => { m with Children := l }
  else .ok m

/-- Reflective `encoding/json` decode of a `More`. -/
def decodeMore : Json → Except Unit More
  | .null => .ok zeroMore
  | .obj flds => foldFields updateMoreField zeroMore flds
  | _ => .error ()

/-- `Post` is a submitted post on Reddit.  `UpvoteRatio` is `float32` in
the source; under the integers-only JSON model it is carried as `Int`
(its value never influences control flow in `things.go`). -/
structure Post where
  ID : String
  FullID : String
  Created : Option Timestamp
  Edited : Option Timestamp
  Permalink : String
  URL : String
  Title : String
  Body : String
  Likes : Option Bool
  Score : Int
  upvoteRatio : Int
  NumberOfComments : Int
  SubredditName : String
  SubredditNamePrefixed : String
  SubredditID : String
  Author : String
  AuthorID : String
  Spoiler : Bool
  Locked : Bool
  NSFW : Bool
  IsSelfPost : Bool
  Saved : Bool
  Stickied : Bool
deriving Repr, DecidableEq

/-- Zero value of `Post`. -/
def zeroPost : Post :=
  ⟨"", "", none, none, "", "", "", "", none, 0, 0, 0, "", "", "", "", "",
   false, false, false, false, false, false⟩

/-- One field-decoding step of the reflective decode of a `Post`, keyed by
the `json:"..."` tags of the source struct. -/
def updatePostField (p : Post) (k : String) (v : Json) : Except Unit Post :=
  if k = "id" then (getString p.ID v).map fun s => { p with ID := s }
  else if k = "name" then (getString p.FullID v).map fun s => { p with FullID := s }
  else if k = "created_utc" then (getOptTimestamp v).map fun t => { p with Created := t }
  else if k = "edited" then (getOptTimestamp v).map fun t => { p with Edited := t }
  else if k = "permalink" then (getString p.Permalink v).map fun s => { p with Permalink := s }
  else if k = "url" then (getString p.URL v).map fun s => { p with URL := s }
  else if k = "title" then (getString p.Title v).map fun s => { p with Title := s }
  else if k = "selftext" then (getString p.Body v).map fun s => { p with Body := s }
  else if k = "likes" then (getOptBool v).map fun b => { p with Likes := b }
  else if k = "score" then (getInt p.Score v).map fun n => { p with Score := n }
  else if k = "upvote_ratio" then (getInt p.upvoteRatio v).map fun n => { p with upvoteRatio := n }
  else if k = "num_comments" then (getInt p.NumberOfComments v).map fun n => { p with NumberOfComments := n }
  else if k = "subreddit" then (getString p.SubredditName v).map fun s => { p with SubredditName := s }
  else if k = "subreddit_name_prefixed" then (getString p.SubredditNamePrefixed v).map fun s => { p with SubredditNamePrefixed := s }
  else if k = "subreddit_id" then (getString p.SubredditID v).map fun s => { p with SubredditID := s }
  else if k = "author" then (getString p.Author v).map fun s => { p with Author := s }
  else if k = "author_fullname" then (getString p.AuthorID v).map fun s => { p with AuthorID := s }
  else if k = "spoiler" then (getBool p.Spoiler v).map fun b => { p with Spoiler := b }
  else if k = "locked" then (getBool p.Locked v).map fun b => { p with Locked := b }
  else if k = "over_18" then (getBool p.NSFW v).map fun b => { p with NSFW := b }
  else if k = "is_self" then (getBool p.IsSelfPost v).map fun b => { p with IsSelfPost := b }
  else if k = "saved" then (getBool p.Saved v).map fun b => { p with Saved := b }
  else if k = "stickied" then (getBool p.Stickied v).map fun b => { p with Stickied := b }
  else .ok p

/-- Reflective `encoding/json` decode of a `Post`. -/
def decodePost : Json → Except Unit Post
  | .null => .ok zeroPost
  | .obj flds => foldFields updatePostField zeroPost flds
  | _ => .error ()

/-- `Subreddit` holds information about a subreddit.  `Type'` models the
Go field `Type` (a reserved word in Lean). -/
structure Subreddit where
  ID : String
  FullID : String
  Created : Option Timestamp
  URL : String
  Name : String
  NamePrefixed : String
  Title : String
  Description : String
  Type' : String
  SuggestedCommentSort : String
  Subscribers : Int
  ActiveUserCount : Option Int
  NSFW : Bool
  UserIsMod : Bool
  Subscribed : Bool
  Favorite : Bool
deriving Repr, DecidableEq

/-- Zero value of `Subreddit`. -/
def zeroSubreddit : Subreddit :=
  ⟨"", "", none, "", "", "", "", "", "", "", 0, none, false, false, false, false⟩

/-- One field-decoding step of the reflective decode of a `Subreddit`. -/
def updateSubredditField (r : Subreddit) (k : String) (v : Json) : Except Unit Subreddit :=
  if k = "id" then (getString r.ID v).map fun s => { r with ID := s }
  else if k = "name" then (getString r.FullID v).map fun s => { r with FullID := s }
  else if k = "created_utc" then (getOptTimestamp v).map fun t => { r with Created := t }
  else if k = "url" then (getString r.URL v).map fun s => { r with URL := s }
  else if k = "display_name" then (getString r.Name v).map fun s => { r with Name := s }
  else if k = "display_name_prefixed" then (getString r.NamePrefixed v).map fun s => { r with NamePrefixed := s }
  else if k = "title" then (getString r.Title v).map fun s => { r with Title := s }
  else if k = "public_description" then (getString r.Description v).map fun s => { r with Description := s }
  else if k = "subreddit_type" then (getString r.Type' v).map fun s => { r with Type' := s }
  else if k = "suggested_comment_sort" then (getString r.SuggestedCommentSort v).map fun s => { r with SuggestedCommentSort := s }
  else if k = "subscribers" then (getInt r.Subscribers v).map fun n => { r with Subscribers := n }
  else if k = "active_user_count" then (getOptInt v).map fun n => { r with ActiveUserCount := n }
  else if k = "over18" then (getBool r.NSFW v).map fun b => { r with NSFW := b }
  else if k = "user_is_moderator" then (getBool r.UserIsMod v).map fun b => { r with UserIsMod := b }
  else if k = "user_is_subscriber" then (getBool r.Subscribed v).map fun b => { r with Subscribed := b }
  else if k = "user_has_favorited" then (getBool r.Favorite v).map fun b => { r with Favorite := b }
  else .ok r

/-- Reflective `encoding/json` decode of a `Subreddit`. -/
def decodeSubreddit : Json → Except Unit Subreddit
  | .null => .ok zeroSubreddit
  | .obj flds => foldFields updateSubredditField zeroSubreddit flds
  | _ => .error ()

/-- Modelled from the spec: the Account record (`User`) is defined outside
the provided source (`src/` holds only `things.go`); the spec describes it
as a flat metadata record with no tree relationships that shares the
envelope machinery, so it is modelled as a flat struct with the generic
reflective object decode. -/
structure User where
  ID : String
  FullID : String
deriving Repr, DecidableEq

/-- Zero value of `User`. -/
def zeroUser : User := ⟨"", ""⟩

/-- Modelled from the spec: one field-decoding step for a `User`. -/
def updateUserField (u : User) (k : String) (v : Json) : Except Unit User :=
  if k = "id" then (getString u.ID v).map fun s => { u with ID := s }
  else if k = "name" then (getString u.FullID v).map fun s => { u with FullID := s }
  else .ok u

/-- Modelled from the spec: reflective decode of a `User`. -/
def decodeUser : Json → Except Unit User
  | .null => .ok zeroUser
  | .obj flds => foldFields updateUserField zeroUser flds
  | _ => .error ()

/-- Modelled from the spec: the Moderation Action record (`ModAction`) is
defined outside the provided source; the spec describes it as a flat
metadata record, modelled like `User`. -/
structure ModAction where
  ID : String
  Action : String
deriving Repr, DecidableEq

/-- Zero value of `ModAction`. -/
def zeroModAction : ModAction := ⟨"", ""⟩

/-- Modelled from the spec: one field-decoding step for a `ModAction`. -/
def updateModActionField (a : ModAction) (k : String) (v : Json) : Except Unit ModAction :=
  if k = "id" then (getString a.ID v).map fun s => { a with ID := s }
  else if k = "action" then (getString a.Action v).map fun s => { a with Action := s }
  else .ok a

/-- Modelled from the spec: reflective decode of a `ModAction`. -/
def decodeModAction : Json → Except Unit ModAction
  | .null => .ok zeroModAction
  | .obj flds => foldFields updateModActionField zeroModAction flds
  | _ => .error ()

/-- The flat (non-recursive) fields of the source struct `Comment`.  The
Go struct also embeds `Replies Replies` (tag `replies`); Lean's
structures cannot recurse, so the comment tree is the inductive `Comment`
below, which pairs these fields with the two components of its `Replies`
struct. -/
structure CommentData where
  ID : String
  FullID : String
  Created : Option Timestamp
  Edited : Option Timestamp
  ParentID : String
  Permalink : String
  Body : String
  Author : String
  AuthorID : String
  AuthorFlairText : String
  AuthorFlairID : String
  SubredditName : String
  SubredditNamePrefixed : String
  SubredditID : String
  Likes : Option Bool
  Score : Int
  Controversiality : Int
  PostID : String
  PostTitle : String
  PostPermalink : String
  PostAuthor : String
  PostNumComments : Option Int
  IsSubmitter : Bool
  ScoreHidden : Bool
  Saved : Bool
  Stickied : Bool
  Locked : Bool
  CanGild : Bool
  NSFW : Bool
deriving Repr, DecidableEq

/-- Zero value of the flat comment fields. -/
def zeroCommentData : CommentData :=
  ⟨"", "", none, none, "", "", "", "", "", "", "", "", "", "", none, 0, 0,
   "", "", "", "", none, false, false, false, false, false, false, false⟩

/-- `Comment` is a comment posted by a user: the flat fields together
with its `Replies` struct, flattened into the child-comment list and the
optional `More` (Go: `Replies.Comments` and `Replies.More`). -/
inductive Comment where
  | mk (fields : CommentData) (replyComments : List Comment) (replyMore : Option More)

/-- The flat fields of a comment. -/
def Comment.fields : Comment → CommentData
  | .mk d _ _ => d

/-- The `Replies.Comments` component of a comment. -/
def Comment.RepliesComments : Comment → List Comment
  | .mk _ rc _ => rc

/-- The `Replies.More` component of a comment. -/
def Comment.RepliesMore : Comment → Option More
  | .mk _ _ rm => rm

/-- The `FullID` field of a comment. -/
def Comment.FullID (c : Comment) : String := c.fields.FullID

/-- The `ParentID` field of a comment. -/
def Comment.ParentID (c : Comment) : String := c.fields.ParentID

/-- Zero value of `Comment`, as allocated by `new(Comment)`. -/
def zeroComment : Comment := .mk zeroCommentData [] none

/-- `Replies` holds replies to a comment: its direct child comments plus
the at-most-one `More` continuation placeholder (`json:"-"`). -/
structure Replies where
  comments : List Comment
  more : Option More

/-- `things` holds the six per-kind buckets produced by the collection
classifier. -/
structure things where
  Comments : List Comment
  Mores : List More
  Users : List User
  Posts : List Post
  Subreddits : List Subreddit
  ModActions : List ModAction

/-- `things.init` initializes or clears the listing: all six buckets
empty. -/
def things.init : things := ⟨[], [], [], [], [], []⟩

/-- `listing` holds things coming from the Reddit API plus the
after/before anchors. -/
structure listing where
  things : things
  after : String
  before : String

/-- Zero value of `listing` (a Go `listing` that was never decoded into:
`nil` buckets, empty cursors). -/
def zeroListing : listing := ⟨things.init, "", ""⟩

/-- `json.Unmarshal(thing.Data, v)` for a payload decoder `f`: a `nil`
RawMessage (absent `data` member) is a decode error ("unexpected end of
JSON input"); otherwise the stored raw value decodes through `f`. -/
def dataUnmarshal (f : Json → Except Unit α) : Option Json → Except Unit α
  | none => .error ()
  | some v => f v

/-! Size bookkeeping for the termination of the mutually recursive
decoders below: the payload carried by a decoded `thing` is no larger
than the JSON it was decoded from. -/

/-- Padded size of the raw payload carried by a `thing`; always positive.
(Only a termination measure for the decoders below; never executed.) -/
noncomputable def dataSizeOne (t : thing) : Nat :=
  match t.data with
  | none => 1
  | some v => 1 + sizeOf v

/-- Total padded payload size of a list of `thing`s (termination measure
only). -/
noncomputable def thingListSize : List thing → Nat
  | [] => 0
  | t :: ts => dataSizeOne t + thingListSize ts

@[simp] theorem dataSizeOne_mk_none (k : String) :
    dataSizeOne ⟨k, none⟩ = 1 := rfl

@[simp] theorem dataSizeOne_mk_some (k : String) (v : Json) :
    dataSizeOne ⟨k, some v⟩ = 1 + sizeOf v := rfl

@[simp] theorem thingListSize_nil : thingListSize [] = 0 := rfl

@[simp] theorem thingListSize_cons (t : thing) (ts : List thing) :
    thingListSize (t :: ts) = dataSizeOne t + thingListSize ts := rfl

theorem dataSizeOne_pos (t : thing) : 0 < dataSizeOne t := by
  obtain ⟨k, d⟩ := t
  cases d <;> simp

theorem updateThingField_size {t t' : thing} {k : String} {v : Json}
    (h : updateThingField t k v = .ok t') :
    dataSizeOne t' ≤ dataSizeOne t + sizeOf v := by
  unfold updateThingField at h
  split at h
  · cases hg : getString t.kind v with
    | error e =>
      rw [hg] at h
      exact absurd h (by simp [Except.map])
    | ok s =>
      rw [hg] at h
      simp [Except.map] at h
      obtain ⟨tk, td⟩ := t
      subst h
      cases td <;> simp
  · split at h
    · simp at h
      obtain ⟨tk, td⟩ := t
      subst h
      simp
      have := dataSizeOne_pos ⟨tk, td⟩
      omega
    · simp at h
      subst h
      exact Nat.le_add_right _ _

theorem foldThingFields_size :
    ∀ (flds : List (String × Json)) (t0 t : thing),
      foldFields updateThingField t0 flds = .ok t →
      dataSizeOne t ≤ dataSizeOne t0 + sizeOf flds := by
  intro flds
  induction flds with
  | nil =>
    intro t0 t h
    simp only [foldFields] at h
    simp at h
    subst h
    exact Nat.le_add_right _ _
  | cons kv rest ih =>
    intro t0 t h
    obtain ⟨k, v⟩ := kv
    simp only [foldFields] at h
    cases hu : updateThingField t0 k v with
    | error e =>
      rw [hu] at h
      simp at h
    | ok t1 =>
      rw [hu] at h
      simp only [] at h
      have h1 := updateThingField_size hu
      have h2 := ih t1 t h
      simp only [List.cons.sizeOf_spec, Prod.mk.sizeOf_spec]
      omega

theorem decodeThing_size {x : Json} {t : thing} (h : decodeThing x = .ok t) :
    dataSizeOne t ≤ sizeOf x := by
  unfold decodeThing at h
  cases x <;> simp at h
  · subst h
    rw [zeroThing]
    simp
  · have := foldThingFields_size _ zeroThing t h
    rw [zeroThing] at this
    simp at this
    simp
    omega

theorem thingList_size :
    ∀ {xs : List Json} {ts : List thing}, thingList xs = .ok ts →
      thingListSize ts ≤ sizeOf xs := by
  intro xs
  induction xs with
  | nil =>
    intro ts h
    simp [thingList] at h
    subst h
    simp
  | cons x rest ih =>
    intro ts h
    unfold thingList at h
    cases hx : decodeThing x with
    | error e => rw [hx] at h; simp at h
    | ok t =>
      rw [hx] at h
      cases hr : thingList rest with
      | error e => rw [hr] at h; simp at h
      | ok ts2 =>
        rw [hr] at h
        simp at h
        subst h
        have h1 := decodeThing_size hx
        have h2 := ih hr
        simp
        omega

/-- The sentinel test of `Replies.UnmarshalJSON` (Go compares the raw
bytes against the two-character literal holding an empty JSON string). -/
def isEmptyString : Json → Bool
  | .str s => s = ""
  | _ => false

/-! The mutually recursive decoders.  The recursion is genuine in the
source: a comment's `replies` field decodes as a nested listing whose
children decode as comments.  Termination is by a lexicographic-style
measure `10 * size + rank` where `size` is the `sizeOf` of the JSON
being consumed (via `thingListSize` for the classifier loop, whose
pending payloads come from strictly smaller JSON by `thingList_size`)
and `rank` orders the same-sized delegation steps
(`Replies.UnmarshalJSON` → `listing.UnmarshalJSON`). -/

/-- The five arms of the `switch` of `things.UnmarshalJSON` for the
non-recursive kinds (`more`, `t2`, `t3`, `t5`, `modaction`), in source
order; any other kind falls through and the envelope is skipped. -/
def classifyOther (acc : things) (t : thing) : things :=
  if t.kind = kindMore then
    match dataUnmarshal decodeMore t.data with
    | .ok m => { acc with Mores := acc.Mores ++ [m] }
    | .error _ => acc
  else if t.kind = kindAccount then
    match dataUnmarshal decodeUser t.data with
    | .ok u => { acc with Users := acc.Users ++ [u] }
    | .error _ => acc
  else if t.kind = kindPost then
    match dataUnmarshal decodePost t.data with
    | .ok p => { acc with Posts := acc.Posts ++ [p] }
    | .error _ => acc
  else if t.kind = kindSubreddit then
    match dataUnmarshal decodeSubreddit t.data with
    | .ok s => { acc with Subreddits := acc.Subreddits ++ [s] }
    | .error _ => acc
  else if t.kind = kindModAction then
    match dataUnmarshal decodeModAction t.data with
    | .ok a => { acc with ModActions := acc.ModActions ++ [a] }
    | .error _ => acc
  else acc

/-- One field-decoding step of the reflective `Comment` decode for the
flat fields, keyed by the `json:"..."` tags of the source struct.  The
`replies` member (tested first by `decodeCommentFields`, which is sound
because the key tests are disjoint) is handled there so that its
recursive decode is visible to the termination checker; this function
therefore never sees it. -/
def updateCommentField (d : CommentData) (rc : List Comment)
    (rm : Option More) (k : String) (v : Json) :
    Except Unit (CommentData × List Comment × Option More) :=
  if k = "id" then (getString d.ID v).map fun s => ({ d with ID := s }, rc, rm)
  else if k = "name" then (getString d.FullID v).map fun s => ({ d with FullID := s }, rc, rm)
  else if k = "created_utc" then (getOptTimestamp v).map fun t => ({ d with Created := t }, rc, rm)
  else if k = "edited" then (getOptTimestamp v).map fun t => ({ d with Edited := t }, rc, rm)
  else if k = "parent_id" then (getString d.ParentID v).map fun s => ({ d with ParentID := s }, rc, rm)
  else if k = "permalink" then (getString d.Permalink v).map fun s => ({ d with Permalink := s }, rc, rm)
  else if k = "body" then (getString d.Body v).map fun s => ({ d with Body := s }, rc, rm)
  else if k = "author" then (getString d.Author v).map fun s => ({ d with Author := s }, rc, rm)
  else if k = "author_fullname" then (getString d.AuthorID v).map fun s => ({ d with AuthorID := s }, rc, rm)
  else if k = "author_flair_text" then (getString d.AuthorFlairText v).map fun s => ({ d with AuthorFlairText := s }, rc, rm)
  else if k = "author_flair_template_id" then (getString d.AuthorFlairID v).map fun s => ({ d with AuthorFlairID := s }, rc, rm)
  else if k = "subreddit" then (getString d.SubredditName v).map fun s => ({ d with SubredditName := s }, rc, rm)
  else if k = "subreddit_name_prefixed" then (getString d.SubredditNamePrefixed v).map fun s => ({ d with SubredditNamePrefixed := s }, rc, rm)
  else if k = "subreddit_id" then (getString d.SubredditID v).map fun s => ({ d with SubredditID := s }, rc, rm)
  else if k = "likes" then (getOptBool v).map fun b => ({ d with Likes := b }, rc, rm)
  else if k = "score" then (getInt d.Score v).map fun n => ({ d with Score := n }, rc, rm)
  else if k = "controversiality" then (getInt d.Controversiality v).map fun n => ({ d with Controversiality := n }, rc, rm)
  else if k = "link_id" then (getString d.PostID v).map fun s => ({ d with PostID := s }, rc, rm)
  else if k = "link_title" then (getString d.PostTitle v).map fun s => ({ d with PostTitle := s }, rc, rm)
  else if k = "link_permalink" then (getString d.PostPermalink v).map fun s => ({ d with PostPermalink := s }, rc, rm)
  else if k = "link_author" then (getString d.PostAuthor v).map fun s => ({ d with PostAuthor := s }, rc, rm)
  else if k = "num_comments" then (getOptInt v).map fun n => ({ d with PostNumComments := n }, rc, rm)
  else if k = "is_submitter" then (getBool d.IsSubmitter v).map fun b => ({ d with IsSubmitter := b }, rc, rm)
  else if k = "score_hidden" then (getBool d.ScoreHidden v).map fun b => ({ d with ScoreHidden := b }, rc, rm)
  else if k = "saved" then (getBool d.Saved v).map fun b => ({ d with Saved := b }, rc, rm)
  else if k = "stickied" then (getBool d.Stickied v).map fun b => ({ d with Stickied := b }, rc, rm)
  else if k = "locked" then (getBool d.Locked v).map fun b => ({ d with Locked := b }, rc, rm)
  else if k = "can_gild" then (getBool d.CanGild v).map fun b => ({ d with CanGild := b }, rc, rm)
  else if k = "over_18" then (getBool d.NSFW v).map fun b => ({ d with NSFW := b }, rc, rm)
  else .ok (d, rc, rm)

mutual

/-- Reflective `encoding/json` decode of a `Comment` (the source has no
custom unmarshaler for `Comment`; only its `Replies` field has one). -/
def decodeComment (j : Json) : Except Unit Comment :=
  match j with
  | .null => .ok zeroComment
  | .obj flds => decodeCommentFields zeroCommentData [] none flds
  | _ => .error ()
termination_by 10 * sizeOf j + 4
decreasing_by all_goals (simp_wf; try omega)

/-- Member loop of the reflective `Comment` decode; the comment being
built is carried as its flat fields plus the two `Replies` components. -/
def decodeCommentFields (d : CommentData) (rc : List Comment)
    (rm : Option More) (flds : List (String × Json)) : Except Unit Comment :=
  match flds with
  | [] => .ok (.mk d rc rm)
  | (k, v) :: rest =>
    if k = "replies" then
      match Replies.UnmarshalJSON ⟨rc, rm⟩ v with
      | .error e => .error e
      | .ok r => decodeCommentFields d r.comments r.more rest
    else
      match updateCommentField d rc rm k v with
      | .error e => .error e
      | .ok (d2, rc2, rm2) => decodeCommentFields d2 rc2 rm2 rest
termination_by 10 * sizeOf flds
decreasing_by all_goals (simp_wf; try omega)

/-- `Replies.UnmarshalJSON`: the literal wire string `""` means "no
replies" and leaves the receiver untouched (the source reassigns only the
local pointer, `r = nil`); anything else decodes as a `listing`, the
receiver's comment list is overwritten and its `More` is overwritten only
when the listing carried at least one `More`. -/
def Replies.UnmarshalJSON (r : Replies) (j : Json) : Except Unit Replies :=
  if isEmptyString j then .ok r
  else
    match listing.UnmarshalJSON j with
    | .error e => .error e
    | .ok root =>
      .ok { comments := root.things.Comments,
            more := match root.things.Mores with
                    | [] => r.more
                    | m :: _ => some m }
termination_by 10 * sizeOf j + 3
decreasing_by all_goals (simp_wf; try omega)

/-- `listing.UnmarshalJSON`: reflective decode of the anonymous root
struct `{ Data struct { Things things; After, Before string } }` followed
by the assignment of its three components. -/
def listing.UnmarshalJSON (j : Json) : Except Unit listing :=
  match j with
  | .null => .ok zeroListing
  | .obj flds => listingRootFields zeroListing flds
  | _ => .error ()
termination_by 10 * sizeOf j + 2
decreasing_by all_goals (simp_wf; try omega)

/-- Member loop of the outer (root) struct of the `listing` decode: only
the `data` member is known; it must be an object (or `null`, a no-op). -/
def listingRootFields (l : listing) (flds : List (String × Json)) :
    Except Unit listing :=
  match flds with
  | [] => .ok l
  | (k, v) :: rest =>
    if k = "data" then
      match v with
      | .null => listingRootFields l rest
      | .obj dflds =>
        match listingDataFields l dflds with
        | .error e => .error e
        | .ok l2 => listingRootFields l2 rest
      | _ => .error ()
    else listingRootFields l rest
termination_by 10 * sizeOf flds
decreasing_by all_goals (simp_wf; try omega)

/-- Member loop of the inner `data` struct of the `listing` decode:
`children` decodes through `things.UnmarshalJSON`, `after`/`before` are
plain string fields, everything else is ignored. -/
def listingDataFields (l : listing) (flds : List (String × Json)) :
    Except Unit listing :=
  match flds with
  | [] => .ok l
  | (k, v) :: rest =>
    if k = "children" then
      match things.UnmarshalJSON v with
      | .error e => .error e
      | .ok ts => listingDataFields { l with things := ts } rest
    else if k = "after" then
      match getString l.after v with
      | .error e => .error e
      | .ok s => listingDataFields { l with after := s } rest
    else if k = "before" then
      match getString l.before v with
      | .error e => .error e
      | .ok s => listingDataFields { l with before := s } rest
    else listingDataFields l rest
termination_by 10 * sizeOf flds
decreasing_by all_goals (simp_wf; try omega)

/-- `things.UnmarshalJSON`: clear the buckets, decode the input as a
`[]thing` (any element that is not a well-formed envelope fails the whole
decode), then classify the envelopes. -/
def things.UnmarshalJSON (j : Json) : Except Unit things :=
  match j with
  | .null => .ok things.init
  | .arr xs =>
    match h : thingList xs with
    | .error e => .error e
    | .ok ts => .ok (classifyLoop things.init ts)
  | _ => .error ()
termination_by 10 * sizeOf j + 1
decreasing_by all_goals (simp_wf; have := thingList_size h; omega)

/-- The `range` loop of `things.UnmarshalJSON`: dispatch on the kind
discriminator, decode the raw payload as that kind's record, append on
success, skip silently on unsupported kind or payload decode failure.
The `t1` arm inlines `dataUnmarshal decodeComment` so that the recursive
call is visible to the termination checker; the five non-recursive arms
live in `classifyOther`. -/
def classifyLoop (acc : things) (ts : List thing) : things :=
  match ts with
  | [] => acc
  | ⟨kind, data⟩ :: rest =>
    let acc2 :=
      if kind = kindComment then
        match data with
        | none => acc
        | some v =>
          match decodeComment v with
          | .ok c => { acc with Comments := acc.Comments ++ [c] }
          | .error _ => acc
      else classifyOther acc ⟨kind, data⟩
    classifyLoop acc2 rest
termination_by 10 * thingListSize ts
decreasing_by
  all_goals simp_wf
  all_goals try omega
  all_goals (have hpos := dataSizeOne_pos ⟨kind, data⟩; omega)

end

/-! Encoding.  `Comment` has no custom marshaler: `encoding/json`
reflectively emits its fields in struct order, honoring the `omitempty`
options of the tags; `Replies` has a custom `MarshalJSON`. -/

/-- A string field with `omitempty`: omitted when empty. -/
def strField (k s : String) : List (String × Json) :=
  if s = "" then [] else [(k, .str s)]

/-- A `*Timestamp` field with `omitempty`: omitted when `nil`. -/
def optTimeField (k : String) : Option Timestamp → List (String × Json)
  | none => []
  | some t => [(k, marshalTimestamp t)]

/-- A `*int` field with `omitempty`: omitted when `nil`. -/
def optIntField (k : String) : Option Int → List (String × Json)
  | none => []
  | some n => [(k, .num n)]

/-- A `*bool` field without `omitempty` (the `likes` tag): `null` when
`nil`. -/
def likesJson : Option Bool → Json
  | none => .null
  | some b => .bool b

theorem sizeOf_commentData_pos (d : CommentData) : 0 < sizeOf d := by
  cases d
  simp only [CommentData.mk.sizeOf_spec]
  omega

mutual

/-- Reflective `encoding/json` encoding of a `Comment`, with the members
in struct order and the tags/`omitempty` options of the source; the
`replies` member goes through the custom `Replies.MarshalJSON`. -/
def marshalComment : Comment → Json
  | .mk d rc rm =>
    .obj (strField "id" d.ID ++ strField "name" d.FullID
      ++ optTimeField "created_utc" d.Created ++ optTimeField "edited" d.Edited
      ++ strField "parent_id" d.ParentID ++ strField "permalink" d.Permalink
      ++ strField "body" d.Body ++ strField "author" d.Author
      ++ strField "author_fullname" d.AuthorID
      ++ strField "author_flair_text" d.AuthorFlairText
      ++ strField "author_flair_template_id" d.AuthorFlairID
      ++ strField "subreddit" d.SubredditName
      ++ strField "subreddit_name_prefixed" d.SubredditNamePrefixed
      ++ strField "subreddit_id" d.SubredditID
      ++ [("likes", likesJson d.Likes)]
      ++ [("score", .num d.Score), ("controversiality", .num d.Controversiality)]
      ++ strField "link_id" d.PostID ++ strField "link_title" d.PostTitle
      ++ strField "link_permalink" d.PostPermalink
      ++ strField "link_author" d.PostAuthor
      ++ optIntField "num_comments" d.PostNumComments
      ++ [("is_submitter", .bool d.IsSubmitter), ("score_hidden", .bool d.ScoreHidden),
          ("saved", .bool d.Saved), ("stickied", .bool d.Stickied),
          ("locked", .bool d.Locked), ("can_gild", .bool d.CanGild),
          ("over_18", .bool d.NSFW),
          ("replies", Replies.MarshalJSON ⟨rc, rm⟩)])
termination_by c => sizeOf c
decreasing_by
  simp_wf
  have := sizeOf_commentData_pos d
  omega

/-- `Replies.MarshalJSON`: a container with zero comments (or a `nil`
receiver, which cannot arise for the addressable field values modelled
here) encodes as JSON `null`; otherwise it encodes as the bare array of
its comments.  The `More` placeholder is never re-serialized. -/
def Replies.MarshalJSON (r : Replies) : Json :=
  if r.comments.isEmpty then .null else .arr (marshalCommentList r.comments)
termination_by sizeOf r
decreasing_by
  simp_wf
  obtain ⟨cs, m⟩ := r
  simp
  omega

/-- Element-wise encoding of `[]*Comment` by `json.Marshal`. -/
def marshalCommentList : List Comment → List Json
  | [] => []
  | c :: rest => marshalComment c :: marshalCommentList rest
termination_by cs => sizeOf cs
decreasing_by all_goals (simp_wf; try omega)

end

/-- `PostAndComments` is a post and its comments.  The Go struct holds
`*Post`; the claims below only concern decoded aggregates, where the post
pointer is always set, so it is modelled as a value. -/
structure PostAndComments where
  Post : Post
  Comments : List Comment
  More : Option More

/-- Decode of `var l [2]listing` from a JSON value, per Go's array
semantics: `null` is a no-op (both elements keep their zero value), a
JSON array shorter than 2 zero-fills the remaining elements, extra
elements beyond 2 are discarded, and anything else is an error. -/
def decodePairElems : List Json → Except Unit (listing × listing)
  | [] => .ok (zeroListing, zeroListing)
  | [a] =>
    match listing.UnmarshalJSON a with
    | .error e => .error e
    | .ok l0 => .ok (l0, zeroListing)
  | a :: b :: _ =>
    match listing.UnmarshalJSON a with
    | .error e => .error e
    | .ok l0 =>
      match listing.UnmarshalJSON b with
      | .error e => .error e
      | .ok l1 => .ok (l0, l1)

/-- The `json.Unmarshal(data, &l)` stage of `PostAndComments.UnmarshalJSON`. -/
def PostAndComments.decodeOuter : Json → Except Unit (listing × listing)
  | .null => .ok (zeroListing, zeroListing)
  | .arr xs => decodePairElems xs
  | _ => .error ()

/-- `PostAndComments.UnmarshalJSON`: decode the two-listing pair, then
read `l[0].Posts[0]` — an unchecked index that panics (`fatal`) when the
first listing holds no posts — and assemble the aggregate. -/
def PostAndComments.UnmarshalJSON (j : Json) : GoResult PostAndComments :=
  match PostAndComments.decodeOuter j with
  | .error _ => .err
  | .ok (l0, l1) =>
    match l0.things.Posts with
    | [] => .fatal
    | p :: _ =>
      .ok { Post := p, Comments := l1.things.Comments,
            More := l1.things.Mores.head? }

/-- `Comment.HasMore` determines whether the comment has more replies to
load in its reply tree. -/
def Comment.HasMore (c : Comment) : Bool :=
  match c.RepliesMore with
  | none => false
  | some m => decide (0 < m.Children.length)

/-- `PostAndComments.HasMore` determines whether the post has more
replies to load in its reply tree. -/
def PostAndComments.HasMore (pc : PostAndComments) : Bool :=
  match pc.More with
  | none => false
  | some m => decide (0 < m.Children.length)

mutual

/-- `Comment.addCommentToReplies` traverses the comment tree to find the
one that the 2nd comment is replying to, then adds it to its replies;
when this node is not the parent, every direct reply is searched. -/
def Comment.addCommentToReplies (c : Comment) (comment : Comment) : Comment :=
  match c with
  | .mk d rc rm =>
    if d.FullID = comment.ParentID then .mk d (rc ++ [comment]) rm
    else .mk d (addCommentList rc comment) rm

/-- The `range` loop of `Comment.addCommentToReplies` over the replies. -/
def addCommentList (cs : List Comment) (comment : Comment) : List Comment :=
  match cs with
  | [] => []
  | c :: rest => c.addCommentToReplies comment :: addCommentList rest comment

end

mutual

/-- `Comment.addMoreToReplies`: set this node's placeholder slot when it
is the parent, otherwise search every direct reply. -/
def Comment.addMoreToReplies (c : Comment) (more : More) : Comment :=
  match c with
  | .mk d rc rm =>
    if d.FullID = more.ParentID then .mk d rc (some more)
    else .mk d (addMoreList rc more) rm

/-- The `range` loop of `Comment.addMoreToReplies` over the replies. -/
def addMoreList (cs : List Comment) (more : More) : List Comment :=
  match cs with
  | [] => []
  | c :: rest => c.addMoreToReplies more :: addMoreList rest more

end

/-- `PostAndComments.addCommentToTree`: append to the aggregate's
top-level comments when the post is the parent, otherwise search every
top-level comment tree. -/
def PostAndComments.addCommentToTree (pc : PostAndComments)
    (comment : Comment) : PostAndComments :=
  if pc.Post.FullID = comment.ParentID then
    { pc with Comments := pc.Comments ++ [comment] }
  else
    { pc with Comments := addCommentList pc.Comments comment }

/-- `PostAndComments.addMoreToTree`: set the aggregate's placeholder slot
when the post is the parent and — with no early return in the source —
always also search every top-level comment tree. -/
def PostAndComments.addMoreToTree (pc : PostAndComments)
    (more : Reddit.More) : PostAndComments :=
  let pc1 := if pc.Post.FullID = more.ParentID then { pc with More := some more } else pc
  { pc1 with Comments := addMoreList pc1.Comments more }

mutual

/-- All `FullID`s reachable in a comment's subtree (specification-side
helper: the nodes `addCommentToReplies` can ever compare against). -/
def Comment.treeIDs : Comment → List String
  | .mk d rc _ => d.FullID :: commentListIDs rc

/-- All `FullID`s reachable in a list of comment subtrees. -/
def commentListIDs : List Comment → List String
  | [] => []
  | c :: rest => c.treeIDs ++ commentListIDs rest

end

/-- All `FullID`s reachable in an aggregate: the post's plus those of
every top-level comment subtree (specification-side helper). -/
def PostAndComments.treeIDs (pc : PostAndComments) : List String :=
  pc.Post.FullID :: commentListIDs pc.Comments

/-- First comment with the given `FullID` in the traversal order of the
attach operations: head first, then its subtree, then the tail
(specification-side helper used to name "the matched node"). -/
def findComment (fid : String) : List Comment → Option Comment
  | [] => none
  | c :: rest =>
    if c.FullID = fid then some c
    else
      match findComment fid c.RepliesComments with
      | some r => some r
      | none => findComment fid rest
termination_by cs => sizeOf cs
decreasing_by
  all_goals simp_wf
  all_goals first
    | omega
    | (obtain ⟨d, rc, rm⟩ := c; simp [Comment.RepliesComments]; omega)


/-! Derived equation lemmas for the well-founded recursive definitions
above, in the per-constructor form that the proofs below consume. -/

@[simp] theorem isEmptyString_null : isEmptyString .null = false := rfl
@[simp] theorem isEmptyString_bool (b : Bool) : isEmptyString (.bool b) = false := rfl
@[simp] theorem isEmptyString_num (n : Int) : isEmptyString (.num n) = false := rfl
@[simp] theorem isEmptyString_str (s : String) :
    isEmptyString (.str s) = decide (s = "") := rfl
@[simp] theorem isEmptyString_arr (xs : List Json) : isEmptyString (.arr xs) = false := rfl
@[simp] theorem isEmptyString_obj (flds : List (String × Json)) :
    isEmptyString (.obj flds) = false := rfl

@[simp] theorem decodeComment_null : decodeComment .null = .ok zeroComment := by
  rw [decodeComment.eq_def]

@[simp] theorem decodeComment_bool (b : Bool) : decodeComment (.bool b) = .error () := by
  rw [decodeComment.eq_def]

@[simp] theorem decodeComment_num (n : Int) : decodeComment (.num n) = .error () := by
  rw [decodeComment.eq_def]

@[simp] theorem decodeComment_str (s : String) : decodeComment (.str s) = .error () := by
  rw [decodeComment.eq_def]

@[simp] theorem decodeComment_arr (xs : List Json) : decodeComment (.arr xs) = .error () := by
  rw [decodeComment.eq_def]

@[simp] theorem decodeComment_obj (flds : List (String × Json)) :
    decodeComment (.obj flds) = decodeCommentFields zeroCommentData [] none flds := by
  rw [decodeComment.eq_def]

@[simp] theorem decodeCommentFields_nil (d : CommentData) (rc : List Comment)
    (rm : Option More) : decodeCommentFields d rc rm [] = .ok (.mk d rc rm) := by
  rw [decodeCommentFields.eq_def]

theorem decodeCommentFields_cons (d : CommentData) (rc : List Comment)
    (rm : Option More) (k : String) (v : Json) (rest : List (String × Json)) :
    decodeCommentFields d rc rm ((k, v) :: rest) =
      if k = "replies" then
        match Replies.UnmarshalJSON ⟨rc, rm⟩ v with
        | .error e => .error e
        | .ok r => decodeCommentFields d r.comments r.more rest
      else
        match updateCommentField d rc rm k v with
        | .error e => .error e
        | .ok (d2, rc2, rm2) => decodeCommentFields d2 rc2 rm2 rest := by
  rw [decodeCommentFields.eq_def]

@[simp] theorem Replies.UnmarshalJSON_emptyStr (r : Replies) :
    Replies.UnmarshalJSON r (.str "") = .ok r := by
  rw [Replies.UnmarshalJSON.eq_def]
  simp

theorem Replies.UnmarshalJSON_listing (r : Replies) (j : Json)
    (h : isEmptyString j = false) :
    Replies.UnmarshalJSON r j =
      match listing.UnmarshalJSON j with
      | .error e => .error e
      | .ok root =>
        .ok { comments := root.things.Comments,
              more := match root.things.Mores with
                      | [] => r.more
                      | m :: _ => some m } := by
  rw [Replies.UnmarshalJSON.eq_def]
  simp [h]

@[simp] theorem listingUnmarshal_null :
    listing.UnmarshalJSON .null = .ok zeroListing := by
  rw [listing.UnmarshalJSON.eq_def]

@[simp] theorem listingUnmarshal_bool (b : Bool) :
    listing.UnmarshalJSON (.bool b) = .error () := by
  rw [listing.UnmarshalJSON.eq_def]

@[simp] theorem listingUnmarshal_num (n : Int) :
    listing.UnmarshalJSON (.num n) = .error () := by
  rw [listing.UnmarshalJSON.eq_def]

@[simp] theorem listingUnmarshal_str (s : String) :
    listing.UnmarshalJSON (.str s) = .error () := by
  rw [listing.UnmarshalJSON.eq_def]

@[simp] theorem listingUnmarshal_arr (xs : List Json) :
    listing.UnmarshalJSON (.arr xs) = .error () := by
  rw [listing.UnmarshalJSON.eq_def]

@[simp] theorem listingUnmarshal_obj (flds : List (String × Json)) :
    listing.UnmarshalJSON (.obj flds) = listingRootFields zeroListing flds := by
  rw [listing.UnmarshalJSON.eq_def]

@[simp] theorem listingRootFields_nil (l : listing) :
    listingRootFields l [] = .ok l := by
  rw [listingRootFields.eq_def]

theorem listingRootFields_cons (l : listing) (k : String) (v : Json)
    (rest : List (String × Json)) :
    listingRootFields l ((k, v) :: rest) =
      if k = "data" then
        match v with
        | .null => listingRootFields l rest
        | .obj dflds =>
          match listingDataFields l dflds with
          | .error e => .error e
          | .ok l2 => listingRootFields l2 rest
        | _ => .error ()
      else listingRootFields l rest := by
  rw [listingRootFields.eq_def]

@[simp] theorem listingDataFields_nil (l : listing) :
    listingDataFields l [] = .ok l := by
  rw [listingDataFields.eq_def]

theorem listingDataFields_cons (l : listing) (k : String) (v : Json)
    (rest : List (String × Json)) :
    listingDataFields l ((k, v) :: rest) =
      if k = "children" then
        match things.UnmarshalJSON v with
        | .error e => .error e
        | .ok ts => listingDataFields { l with things := ts } rest
      else if k = "after" then
        match getString l.after v with
        | .error e => .error e
        | .ok s => listingDataFields { l with after := s } rest
      else if k = "before" then
        match getString l.before v with
        | .error e => .error e
        | .ok s => listingDataFields { l with before := s } rest
      else listingDataFields l rest := by
  rw [listingDataFields.eq_def]

@[simp] theorem thingsUnmarshal_null :
    things.UnmarshalJSON .null = .ok things.init := by
  rw [things.UnmarshalJSON.eq_def]

@[simp] theorem thingsUnmarshal_bool (b : Bool) :
    things.UnmarshalJSON (.bool b) = .error () := by
  rw [things.UnmarshalJSON.eq_def]

@[simp] theorem thingsUnmarshal_num (n : Int) :
    things.UnmarshalJSON (.num n) = .error () := by
  rw [things.UnmarshalJSON.eq_def]

@[simp] theorem thingsUnmarshal_str (s : String) :
    things.UnmarshalJSON (.str s) = .error () := by
  rw [things.UnmarshalJSON.eq_def]

@[simp] theorem thingsUnmarshal_obj (flds : List (String × Json)) :
    things.UnmarshalJSON (.obj flds) = .error () := by
  rw [things.UnmarshalJSON.eq_def]

theorem thingsUnmarshal_arr (xs : List Json) :
    things.UnmarshalJSON (.arr xs) =
      match thingList xs with
      | .error e => .error e
      | .ok ts => .ok (classifyLoop things.init ts) := by
  rw [things.UnmarshalJSON.eq_def]
  split
  · rename_i hcon
    simp at hcon
  · rename_i hcon
    injection hcon with hxs
    subst hxs
    split <;> rename_i h2 <;> simp [h2]
  · split <;> rename_i h2 <;> simp [h2]

/-- One classification step of the `range` loop, as a standalone value
(the source computes it inline). -/
def classifyThingStep (acc : things) (t : thing) : things :=
  if t.kind = kindComment then
    match dataUnmarshal decodeComment t.data with
    | .ok c => { acc with Comments := acc.Comments ++ [c] }
    | .error _ => acc
  else classifyOther acc t

@[simp] theorem classifyLoop_nil (acc : things) : classifyLoop acc [] = acc := by
  rw [classifyLoop.eq_def]

@[simp] theorem classifyLoop_cons (acc : things) (t : thing) (rest : List thing) :
    classifyLoop acc (t :: rest) = classifyLoop (classifyThingStep acc t) rest := by
  obtain ⟨kind, data⟩ := t
  rw [classifyLoop.eq_def]
  cases data with
  | none => simp [classifyThingStep, dataUnmarshal]
  | some v => simp [classifyThingStep, dataUnmarshal]

@[simp] theorem marshalComment_mk (d : CommentData) (rc : List Comment)
    (rm : Option More) :
    marshalComment (.mk d rc rm) =
      .obj (strField "id" d.ID ++ strField "name" d.FullID
        ++ optTimeField "created_utc" d.Created ++ optTimeField "edited" d.Edited
        ++ strField "parent_id" d.ParentID ++ strField "permalink" d.Permalink
        ++ strField "body" d.Body ++ strField "author" d.Author
        ++ strField "author_fullname" d.AuthorID
        ++ strField "author_flair_text" d.AuthorFlairText
        ++ strField "author_flair_template_id" d.AuthorFlairID
        ++ strField "subreddit" d.SubredditName
        ++ strField "subreddit_name_prefixed" d.SubredditNamePrefixed
        ++ strField "subreddit_id" d.SubredditID
        ++ [("likes", likesJson d.Likes)]
        ++ [("score", .num d.Score), ("controversiality", .num d.Controversiality)]
        ++ strField "link_id" d.PostID ++ strField "link_title" d.PostTitle
        ++ strField "link_permalink" d.PostPermalink
        ++ strField "link_author" d.PostAuthor
        ++ optIntField "num_comments" d.PostNumComments
        ++ [("is_submitter", .bool d.IsSubmitter), ("score_hidden", .bool d.ScoreHidden),
            ("saved", .bool d.Saved), ("stickied", .bool d.Stickied),
            ("locked", .bool d.Locked), ("can_gild", .bool d.CanGild),
            ("over_18", .bool d.NSFW),
            ("replies", Replies.MarshalJSON ⟨rc, rm⟩)]) := by
  rw [marshalComment.eq_def]

@[simp] theorem Replies.MarshalJSON_eq (r : Replies) :
    Replies.MarshalJSON r =
      if r.comments.isEmpty then .null else .arr (marshalCommentList r.comments) := by
  rw [Replies.MarshalJSON.eq_def]

@[simp] theorem marshalCommentList_nil : marshalCommentList [] = [] := by
  rw [marshalCommentList.eq_def]

@[simp] theorem marshalCommentList_cons (c : Comment) (rest : List Comment) :
    marshalCommentList (c :: rest) = marshalComment c :: marshalCommentList rest := by
  rw [marshalCommentList.eq_def]

@[simp] theorem addCommentToReplies_mk (d : CommentData) (rc : List Comment)
    (rm : Option More) (x : Comment) :
    Comment.addCommentToReplies (.mk d rc rm) x =
      if d.FullID = x.ParentID then .mk d (rc ++ [x]) rm
      else .mk d (addCommentList rc x) rm := by
  rw [Comment.addCommentToReplies.eq_def]

@[simp] theorem addCommentList_nil (x : Comment) : addCommentList [] x = [] := by
  rw [addCommentList.eq_def]

@[simp] theorem addCommentList_cons (c : Comment) (rest : List Comment) (x : Comment) :
    addCommentList (c :: rest) x =
      c.addCommentToReplies x :: addCommentList rest x := by
  rw [addCommentList.eq_def]

@[simp] theorem addMoreToReplies_mk (d : CommentData) (rc : List Comment)
    (rm : Option More) (m : More) :
    Comment.addMoreToReplies (.mk d rc rm) m =
      if d.FullID = m.ParentID then .mk d rc (some m)
      else .mk d (addMoreList rc m) rm := by
  rw [Comment.addMoreToReplies.eq_def]

@[simp] theorem addMoreList_nil (m : More) : addMoreList [] m = [] := by
  rw [addMoreList.eq_def]

@[simp] theorem addMoreList_cons (c : Comment) (rest : List Comment) (m : More) :
    addMoreList (c :: rest) m = c.addMoreToReplies m :: addMoreList rest m := by
  rw [addMoreList.eq_def]

@[simp] theorem treeIDs_mk (d : CommentData) (rc : List Comment) (rm : Option More) :
    Comment.treeIDs (.mk d rc rm) = d.FullID :: commentListIDs rc := by
  rw [Comment.treeIDs.eq_def]

@[simp] theorem commentListIDs_nil : commentListIDs [] = [] := by
  rw [commentListIDs.eq_def]

@[simp] theorem commentListIDs_cons (c : Comment) (rest : List Comment) :
    commentListIDs (c :: rest) = c.treeIDs ++ commentListIDs rest := by
  rw [commentListIDs.eq_def]

@[simp] theorem findComment_nil (fid : String) : findComment fid [] = none := by
  rw [findComment.eq_def]

@[simp] theorem findComment_cons (fid : String) (c : Comment) (rest : List Comment) :
    findComment fid (c :: rest) =
      if c.FullID = fid then some c
      else
        match findComment fid c.RepliesComments with
        | some r => some r
        | none => findComment fid rest := by
  rw [findComment.eq_def]


/-! Dispatched forms of the member-loop equations: one lemma per branch,
with each scrutinee pinned by a hypothesis, so that concrete decodes are
evaluated in small steps (never re-reducing the recursive fixpoints). -/

theorem decodeCommentFields_replies_ok {rc : List Comment} {r : Replies}
    {rest : List (String × Json)} (d : CommentData) (rm : Option More) (v : Json)
    (h : Replies.UnmarshalJSON ⟨rc, rm⟩ v = .ok r) :
    decodeCommentFields d rc rm (("replies", v) :: rest) =
      decodeCommentFields d r.comments r.more rest := by
  rw [decodeCommentFields_cons, if_pos rfl, h]

theorem decodeCommentFields_replies_err {rc : List Comment} {e : Unit}
    {rest : List (String × Json)} (d : CommentData) (rm : Option More) (v : Json)
    (h : Replies.UnmarshalJSON ⟨rc, rm⟩ v = .error e) :
    decodeCommentFields d rc rm (("replies", v) :: rest) = .error e := by
  rw [decodeCommentFields_cons, if_pos rfl, h]

theorem decodeCommentFields_flat_ok {k : String} {v : Json} {d2 : CommentData}
    {rc2 : List Comment} {rm2 : Option More} {rest : List (String × Json)}
    (d : CommentData) (rc : List Comment) (rm : Option More)
    (hk : ¬k = "replies")
    (h : updateCommentField d rc rm k v = .ok (d2, rc2, rm2)) :
    decodeCommentFields d rc rm ((k, v) :: rest) =
      decodeCommentFields d2 rc2 rm2 rest := by
  rw [decodeCommentFields_cons, if_neg hk, h]

theorem decodeCommentFields_flat_err {k : String} {v : Json} {e : Unit}
    {rest : List (String × Json)}
    (d : CommentData) (rc : List Comment) (rm : Option More)
    (hk : ¬k = "replies")
    (h : updateCommentField d rc rm k v = .error e) :
    decodeCommentFields d rc rm ((k, v) :: rest) = .error e := by
  rw [decodeCommentFields_cons, if_neg hk, h]

theorem Replies.UnmarshalJSON_err {j : Json} {e : Unit} (r : Replies)
    (hj : isEmptyString j = false) (h : listing.UnmarshalJSON j = .error e) :
    Replies.UnmarshalJSON r j = .error e := by
  rw [Replies.UnmarshalJSON_listing r j hj, h]

theorem Replies.UnmarshalJSON_ok {j : Json} {root : listing} (r : Replies)
    (hj : isEmptyString j = false) (h : listing.UnmarshalJSON j = .ok root) :
    Replies.UnmarshalJSON r j =
      .ok { comments := root.things.Comments,
            more := match root.things.Mores with
                    | [] => r.more
                    | m :: _ => some m } := by
  rw [Replies.UnmarshalJSON_listing r j hj, h]

theorem listingRootFields_data_obj_ok {dflds : List (String × Json)} {l2 : listing}
    (l : listing) (rest : List (String × Json))
    (h : listingDataFields l dflds = .ok l2) :
    listingRootFields l (("data", .obj dflds) :: rest) = listingRootFields l2 rest := by
  rw [listingRootFields_cons, if_pos rfl]
  show (match listingDataFields l dflds with
        | .error e => Except.error e
        | .ok l2 => listingRootFields l2 rest) = _
  rw [h]

theorem listingRootFields_other {k : String} (l : listing) (v : Json)
    (rest : List (String × Json)) (hk : ¬k = "data") :
    listingRootFields l ((k, v) :: rest) = listingRootFields l rest := by
  rw [listingRootFields_cons, if_neg hk]

theorem listingDataFields_children_ok {v : Json} {ts : things}
    (l : listing) (rest : List (String × Json))
    (h : things.UnmarshalJSON v = .ok ts) :
    listingDataFields l (("children", v) :: rest) =
      listingDataFields { l with things := ts } rest := by
  rw [listingDataFields_cons, if_pos rfl, h]

theorem listingDataFields_after_ok {v : Json} {s2 : String}
    (l : listing) (rest : List (String × Json))
    (h : getString l.after v = .ok s2) :
    listingDataFields l (("after", v) :: rest) =
      listingDataFields { l with after := s2 } rest := by
  rw [listingDataFields_cons, if_neg (by decide), if_pos rfl, h]

theorem listingDataFields_before_ok {v : Json} {s2 : String}
    (l : listing) (rest : List (String × Json))
    (h : getString l.before v = .ok s2) :
    listingDataFields l (("before", v) :: rest) =
      listingDataFields { l with before := s2 } rest := by
  rw [listingDataFields_cons, if_neg (by decide), if_neg (by decide), if_pos rfl, h]

theorem listingDataFields_other {k : String} (l : listing) (v : Json)
    (rest : List (String × Json)) (h1 : ¬k = "children") (h2 : ¬k = "after")
    (h3 : ¬k = "before") :
    listingDataFields l ((k, v) :: rest) = listingDataFields l rest := by
  rw [listingDataFields_cons, if_neg h1, if_neg h2, if_neg h3]

theorem thingsUnmarshal_arr_ok {xs : List Json} {ts : List thing}
    (h : thingList xs = .ok ts) :
    things.UnmarshalJSON (.arr xs) = .ok (classifyLoop things.init ts) := by
  rw [thingsUnmarshal_arr, h]


@[simp] theorem listing_eta (l : listing) :
    listing.mk l.things l.after l.before = l := rfl

@[simp] theorem listingDataFields_after_null (l : listing) (rest : List (String × Json)) :
    listingDataFields l (("after", .null) :: rest) = listingDataFields l rest := by
  rw [listingDataFields_cons, if_neg (by decide), if_pos rfl]
  simp [getString]

@[simp] theorem listingDataFields_before_null (l : listing) (rest : List (String × Json)) :
    listingDataFields l (("before", .null) :: rest) = listingDataFields l rest := by
  rw [listingDataFields_cons, if_neg (by decide), if_neg (by decide), if_pos rfl]
  simp [getString]

@[simp] theorem Comment.fields_mk (d : CommentData) (rc : List Comment)
    (rm : Option More) : Comment.fields (.mk d rc rm) = d := rfl

@[simp] theorem Comment.RepliesComments_mk (d : CommentData) (rc : List Comment)
    (rm : Option More) : Comment.RepliesComments (.mk d rc rm) = rc := rfl

@[simp] theorem Comment.RepliesMore_mk (d : CommentData) (rc : List Comment)
    (rm : Option More) : Comment.RepliesMore (.mk d rc rm) = rm := rfl

@[simp] theorem Comment.FullID_mk (d : CommentData) (rc : List Comment)
    (rm : Option More) : Comment.FullID (.mk d rc rm) = d.FullID := rfl

@[simp] theorem Comment.ParentID_mk (d : CommentData) (rc : List Comment)
    (rm : Option More) : Comment.ParentID (.mk d rc rm) = d.ParentID := rfl

/-! Sample values used by the witnesses below. -/

/-- A post whose full ID is `t3_root`. -/
def samplePost : Post := { zeroPost with FullID := "t3_root" }

/-- A freshly decoded aggregate: the sample post, no comments, no
placeholder. -/
def sampleTree : PostAndComments := ⟨samplePost, [], none⟩

/-- Flat fields of a comment `t1_a` replying to the sample post. -/
def parentData : CommentData :=
  { zeroCommentData with FullID := "t1_a", ParentID := "t3_root" }

/-- A comment `t1_b` replying to `t1_a`. -/
def childComment : Comment :=
  .mk { zeroCommentData with FullID := "t1_b", ParentID := "t1_a" } [] none


/-! Claim theorems. -/

/-- C2: attaching `parent(fullID=A, parentFullID=ROOT)` and then
`child(fullID=B, parentFullID=A)` to an initially comment-less aggregate
whose post has full ID `ROOT` yields a top-level comment sequence of
exactly the parent, whose reply sequence is exactly the child. -/
theorem claimC2 (pc : PostAndComments) (d : CommentData) (rm : Option More)
    (child : Comment)
    (hempty : pc.Comments = [])
    (hparent : d.ParentID = pc.Post.FullID)
    (hchild : child.ParentID = d.FullID)
    (hne : d.FullID ≠ pc.Post.FullID) :
    ((pc.addCommentToTree (.mk d [] rm)).addCommentToTree child).Comments
      = [.mk d [child] rm] := by
  unfold PostAndComments.addCommentToTree
  simp [hempty, hparent, hchild, Ne.symm hne]

/-- C2 witness: the concrete sample scenario. -/
theorem claimC2_witness :
    ((sampleTree.addCommentToTree (.mk parentData [] none)).addCommentToTree
      childComment).Comments = [.mk parentData [childComment] none] :=
  claimC2 sampleTree parentData none childComment rfl rfl rfl (by decide)

/-- C8: decoding the reply-field wire value `""` into a fresh (zero)
container succeeds with zero comments and no placeholder, and a container
with zero comments encodes as JSON `null` (whatever its placeholder). -/
theorem claimC8 :
    Replies.UnmarshalJSON ⟨[], none⟩ (.str "") = .ok ⟨[], none⟩
    ∧ ∀ rm : Option More, Replies.MarshalJSON ⟨[], rm⟩ = .null := by
  refine ⟨Replies.UnmarshalJSON_emptyStr _, fun rm => ?_⟩
  simp

/-- C9: both `HasMore` predicates hold exactly when the placeholder is
present and its `Children` list is non-empty; a placeholder with an empty
`Children` list reports nothing more to load. -/
theorem claimC9 (c : Comment) (pc : PostAndComments) :
    (c.HasMore = true ↔ ∃ m, c.RepliesMore = some m ∧ m.Children ≠ [])
    ∧ (pc.HasMore = true ↔ ∃ m, pc.More = some m ∧ m.Children ≠ []) := by
  constructor
  · unfold Comment.HasMore
    cases hm : c.RepliesMore with
    | none => simp
    | some m => simp [List.length_pos]
  · unfold PostAndComments.HasMore
    cases hm : pc.More with
    | none => simp
    | some m => simp [List.length_pos]

/-- C10: decoding the `""` sentinel into any receiver (whether or not it
already holds comments or a placeholder) returns the receiver exactly as
it was: the empty-string branch performs no mutation, so the
empty-container guarantee only holds for a zero-valued receiver. -/
theorem claimC10 (r : Replies) : Replies.UnmarshalJSON r (.str "") = .ok r :=
  Replies.UnmarshalJSON_emptyStr r


/-! Helper lemmas for C6: when no node of the tree carries the comment's
`ParentID`, the attach operation is the identity. -/

mutual

theorem addCommentToReplies_no_match :
    ∀ (c x : Comment), x.ParentID ∉ c.treeIDs → c.addCommentToReplies x = c
  | .mk d rc rm, x, h => by
    rw [treeIDs_mk] at h
    have h1 : ¬d.FullID = x.ParentID := by
      intro he
      exact h (by rw [← he]; exact List.mem_cons_self _ _)
    have h2 : x.ParentID ∉ commentListIDs rc :=
      fun hin => h (List.mem_cons_of_mem _ hin)
    rw [addCommentToReplies_mk, if_neg h1, addCommentList_no_match rc x h2]

theorem addCommentList_no_match :
    ∀ (cs : List Comment) (x : Comment),
      x.ParentID ∉ commentListIDs cs → addCommentList cs x = cs
  | [], x, _ => addCommentList_nil x
  | c :: rest, x, h => by
    rw [commentListIDs_cons] at h
    have hc : x.ParentID ∉ c.treeIDs :=
      fun hin => h (List.mem_append_left _ hin)
    have hr : x.ParentID ∉ commentListIDs rest :=
      fun hin => h (List.mem_append_right _ hin)
    rw [addCommentList_cons, addCommentToReplies_no_match c x hc,
      addCommentList_no_match rest x hr]

end

/-- C6: a comment whose `ParentID` matches no node currently in the tree
(neither the post nor any reachable comment) is silently dropped: the
attach returns the aggregate entirely unchanged. -/
theorem claimC6 (pc : PostAndComments) (x : Comment)
    (h : x.ParentID ∉ pc.treeIDs) : pc.addCommentToTree x = pc := by
  unfold PostAndComments.treeIDs at h
  have h1 : ¬pc.Post.FullID = x.ParentID := by
    intro he
    exact h (by rw [← he]; exact List.mem_cons_self _ _)
  have h2 : x.ParentID ∉ commentListIDs pc.Comments :=
    fun hin => h (List.mem_cons_of_mem _ hin)
  unfold PostAndComments.addCommentToTree
  rw [if_neg h1, addCommentList_no_match pc.Comments x h2]

/-- C6 witness: feeding `child(parentFullID=t1_a)` before its parent
exists leaves the sample tree untouched. -/
theorem claimC6_witness : sampleTree.addCommentToTree childComment = sampleTree :=
  claimC6 sampleTree childComment (by
    simp [PostAndComments.treeIDs, sampleTree, samplePost, childComment,
      zeroPost, zeroCommentData])


/-! Helper lemmas for C7: re-attaching a placeholder with the same parent
collapses to a single attach, and the matched node's slot holds the new
placeholder. -/

mutual

theorem addMoreToReplies_overwrite :
    ∀ (c : Comment) (m1 m2 : More), m1.ParentID = m2.ParentID →
      (c.addMoreToReplies m1).addMoreToReplies m2 = c.addMoreToReplies m2
  | .mk d rc rm, m1, m2, h => by
    by_cases hd : d.FullID = m1.ParentID
    · rw [addMoreToReplies_mk, if_pos hd, addMoreToReplies_mk, if_pos (h ▸ hd),
        addMoreToReplies_mk, if_pos (h ▸ hd)]
    · rw [addMoreToReplies_mk, if_neg hd, addMoreToReplies_mk, if_neg (h ▸ hd),
        addMoreToReplies_mk, if_neg (h ▸ hd),
        addMoreList_overwrite rc m1 m2 h]

theorem addMoreList_overwrite :
    ∀ (cs : List Comment) (m1 m2 : More), m1.ParentID = m2.ParentID →
      addMoreList (addMoreList cs m1) m2 = addMoreList cs m2
  | [], _, _, _ => by simp
  | c :: rest, m1, m2, h => by
    rw [addMoreList_cons, addMoreList_cons, addMoreList_cons,
      addMoreToReplies_overwrite c m1 m2 h, addMoreList_overwrite rest m1 m2 h]

end

theorem findComment_addMoreList :
    ∀ (cs : List Comment) (m : More),
      findComment m.ParentID (addMoreList cs m) =
        (findComment m.ParentID cs).map
          (fun c => Comment.mk c.fields c.RepliesComments (some m))
  | [], m => by simp
  | (Comment.mk d rc rm) :: rest, m => by
    rw [addMoreList_cons, addMoreToReplies_mk]
    by_cases hd : d.FullID = m.ParentID
    · rw [if_pos hd, findComment_cons, findComment_cons]
      simp [hd]
    · rw [if_neg hd, findComment_cons, findComment_cons]
      simp only [Comment.FullID_mk, if_neg hd, Comment.RepliesComments_mk]
      rw [findComment_addMoreList rc m]
      cases hf : findComment m.ParentID rc with
      | some r => simp
      | none => simp [findComment_addMoreList rest m]
termination_by cs => sizeOf cs
decreasing_by all_goals (simp_wf; try omega)

/-- The source's `addMoreToTree` sets the aggregate slot (without early
return) and then always maps the attach over the top-level comments. -/
theorem addMoreToTree_eq (pc : PostAndComments) (m : More) :
    pc.addMoreToTree m =
      ⟨pc.Post, addMoreList pc.Comments m,
        if pc.Post.FullID = m.ParentID then some m else pc.More⟩ := by
  unfold PostAndComments.addMoreToTree
  by_cases hp : pc.Post.FullID = m.ParentID <;> simp [hp]

/-- C7: attaching two placeholders that name the same parent, in order,
is the same as attaching only the second: the aggregate slot retains only
the second when the post matches, and the first comment node matched in
traversal order carries exactly the second in its single slot. -/
theorem claimC7 (pc : PostAndComments) (m1 m2 : More)
    (h : m1.ParentID = m2.ParentID) :
    (pc.addMoreToTree m1).addMoreToTree m2 = pc.addMoreToTree m2
    ∧ (pc.Post.FullID = m2.ParentID →
        ((pc.addMoreToTree m1).addMoreToTree m2).More = some m2)
    ∧ findComment m2.ParentID
        (((pc.addMoreToTree m1).addMoreToTree m2).Comments)
        = (findComment m2.ParentID pc.Comments).map
            (fun c => Comment.mk c.fields c.RepliesComments (some m2)) := by
  have hcomp : (pc.addMoreToTree m1).addMoreToTree m2 = pc.addMoreToTree m2 := by
    rw [addMoreToTree_eq pc m1, addMoreToTree_eq, addMoreToTree_eq pc m2]
    simp only []
    rw [addMoreList_overwrite pc.Comments m1 m2 h, h]
    by_cases hp : pc.Post.FullID = m2.ParentID <;> simp [hp]
  refine ⟨hcomp, ?_, ?_⟩
  · intro hp
    rw [hcomp, addMoreToTree_eq]
    simp [hp]
  · rw [hcomp, addMoreToTree_eq]
    exact findComment_addMoreList pc.Comments m2

/-- A continuation placeholder naming `t1_a`, listing one hidden child. -/
def sampleMore1 : More :=
  { zeroMore with FullID := "more_1", ParentID := "t1_a", Children := ["t1_x"] }

/-- A second placeholder naming `t1_a`, listing two hidden children. -/
def sampleMore2 : More :=
  { zeroMore with FullID := "more_2", ParentID := "t1_a", Children := ["t1_y", "t1_z"] }

/-- The sample tree holding the comment `t1_a` under the sample post. -/
def sampleTree2 : PostAndComments :=
  ⟨samplePost, [.mk parentData [] none], none⟩

/-- C7 witness: the two sample placeholders on the sample tree. -/
theorem claimC7_witness :
    (sampleTree2.addMoreToTree sampleMore1).addMoreToTree sampleMore2
      = sampleTree2.addMoreToTree sampleMore2
    ∧ (sampleTree2.Post.FullID = sampleMore2.ParentID →
        ((sampleTree2.addMoreToTree sampleMore1).addMoreToTree
          sampleMore2).More = some sampleMore2)
    ∧ findComment sampleMore2.ParentID
        (((sampleTree2.addMoreToTree sampleMore1).addMoreToTree
          sampleMore2).Comments)
        = (findComment sampleMore2.ParentID sampleTree2.Comments).map
            (fun c => Comment.mk c.fields c.RepliesComments (some sampleMore2)) :=
  claimC7 sampleTree2 sampleMore1 sampleMore2 rfl


/-! Helper lemmas and claim for C3: the collection classifier. -/

@[simp] theorem Except.toOption_ok_eq {ε α : Type} (a : α) :
    (Except.ok a : Except ε α).toOption = some a := rfl

@[simp] theorem Except.toOption_error_eq {ε α : Type} (e : ε) :
    (Except.error e : Except ε α).toOption = none := rfl

@[simp] theorem things_eta (t : things) :
    things.mk t.Comments t.Mores t.Users t.Posts t.Subreddits t.ModActions = t := rfl

/-- The record the classifier appends to the `t1` bucket for an envelope,
when any (specification-side selector). -/
def pickComment (t : thing) : Option Comment :=
  if t.kind = kindComment then (dataUnmarshal decodeComment t.data).toOption else none

/-- Selector for the `more` bucket. -/
def pickMore (t : thing) : Option More :=
  if t.kind = kindMore then (dataUnmarshal decodeMore t.data).toOption else none

/-- Selector for the `t2` bucket. -/
def pickUser (t : thing) : Option User :=
  if t.kind = kindAccount then (dataUnmarshal decodeUser t.data).toOption else none

/-- Selector for the `t3` bucket. -/
def pickPost (t : thing) : Option Post :=
  if t.kind = kindPost then (dataUnmarshal decodePost t.data).toOption else none

/-- Selector for the `t5` bucket. -/
def pickSubreddit (t : thing) : Option Subreddit :=
  if t.kind = kindSubreddit then (dataUnmarshal decodeSubreddit t.data).toOption else none

/-- Selector for the `modaction` bucket. -/
def pickModAction (t : thing) : Option ModAction :=
  if t.kind = kindModAction then (dataUnmarshal decodeModAction t.data).toOption else none

theorem classifyThingStep_eq (acc : things) (t : thing) :
    classifyThingStep acc t =
      { Comments := acc.Comments ++ (pickComment t).toList,
        Mores := acc.Mores ++ (pickMore t).toList,
        Users := acc.Users ++ (pickUser t).toList,
        Posts := acc.Posts ++ (pickPost t).toList,
        Subreddits := acc.Subreddits ++ (pickSubreddit t).toList,
        ModActions := acc.ModActions ++ (pickModAction t).toList } := by
  unfold classifyThingStep classifyOther pickComment pickMore pickUser pickPost
    pickSubreddit pickModAction
  split_ifs with h1 h2 h3 h4 h5 h6 <;>
    simp_all [kindComment, kindMore, kindAccount, kindPost, kindSubreddit, kindModAction] <;>
    (try (split <;> rename_i hh <;> simp [hh]))

theorem classifyLoop_buckets :
    ∀ (ts : List thing) (acc : things),
      classifyLoop acc ts =
        { Comments := acc.Comments ++ ts.filterMap pickComment,
          Mores := acc.Mores ++ ts.filterMap pickMore,
          Users := acc.Users ++ ts.filterMap pickUser,
          Posts := acc.Posts ++ ts.filterMap pickPost,
          Subreddits := acc.Subreddits ++ ts.filterMap pickSubreddit,
          ModActions := acc.ModActions ++ ts.filterMap pickModAction } := by
  intro ts
  induction ts with
  | nil => intro acc; simp
  | cons t rest ih =>
    intro acc
    rw [classifyLoop_cons, ih, classifyThingStep_eq]
    simp only [things.mk.injEq, List.filterMap_cons, List.append_assoc]
    refine ⟨?_, ?_, ?_, ?_, ?_, ?_⟩
    · cases hp : pickComment t <;> simp [hp]
    · cases hp : pickMore t <;> simp [hp]
    · cases hp : pickUser t <;> simp [hp]
    · cases hp : pickPost t <;> simp [hp]
    · cases hp : pickSubreddit t <;> simp [hp]
    · cases hp : pickModAction t <;> simp [hp]

/-- C3: once the input decodes as a sequence of envelopes, the enclosing
decode never fails, and each bucket is exactly the in-order sequence of
records of that kind whose payload decodes — one appended record per such
envelope and nothing for an unsupported kind or an undecodable payload,
with no effect on any other bucket. -/
theorem claimC3 (xs : List Json) (ts : List thing)
    (h : thingList xs = .ok ts) :
    things.UnmarshalJSON (.arr xs) = .ok (classifyLoop things.init ts)
    ∧ (classifyLoop things.init ts).Comments = ts.filterMap pickComment
    ∧ (classifyLoop things.init ts).Mores = ts.filterMap pickMore
    ∧ (classifyLoop things.init ts).Users = ts.filterMap pickUser
    ∧ (classifyLoop things.init ts).Posts = ts.filterMap pickPost
    ∧ (classifyLoop things.init ts).Subreddits = ts.filterMap pickSubreddit
    ∧ (classifyLoop things.init ts).ModActions = ts.filterMap pickModAction := by
  refine ⟨thingsUnmarshal_arr_ok h, ?_, ?_, ?_, ?_, ?_, ?_⟩ <;>
    (rw [classifyLoop_buckets]; simp [things.init])

/-- Wire envelopes exercising the classifier: a decodable comment, an
unsupported kind, a comment envelope with an undecodable payload, and a
decodable placeholder. -/
def sampleEnvelopes : List Json :=
  [.obj [("kind", .str "t1"),
     ("data", .obj [("name", .str "t1_a"), ("parent_id", .str "t3_root")])],
   .obj [("kind", .str "t9"), ("data", .obj [])],
   .obj [("kind", .str "t1"), ("data", .str "oops")],
   .obj [("kind", .str "more"),
     ("data", .obj [("name", .str "more_1"), ("parent_id", .str "t3_root"),
       ("children", .arr [.str "t1_y"])])]]

/-- The envelopes of `sampleEnvelopes` after the `[]thing` stage. -/
def sampleThings : List thing :=
  [⟨"t1", some (.obj [("name", .str "t1_a"), ("parent_id", .str "t3_root")])⟩,
   ⟨"t9", some (.obj [])⟩,
   ⟨"t1", some (.str "oops")⟩,
   ⟨"more", some (.obj [("name", .str "more_1"), ("parent_id", .str "t3_root"),
     ("children", .arr [.str "t1_y"])])⟩]

/-- C3 witness: the sample envelopes decode and classify as stated. -/
theorem claimC3_witness :
    things.UnmarshalJSON (.arr sampleEnvelopes)
      = .ok (classifyLoop things.init sampleThings)
    ∧ (classifyLoop things.init sampleThings).Comments
        = sampleThings.filterMap pickComment
    ∧ (classifyLoop things.init sampleThings).Mores
        = sampleThings.filterMap pickMore
    ∧ (classifyLoop things.init sampleThings).Users
        = sampleThings.filterMap pickUser
    ∧ (classifyLoop things.init sampleThings).Posts
        = sampleThings.filterMap pickPost
    ∧ (classifyLoop things.init sampleThings).Subreddits
        = sampleThings.filterMap pickSubreddit
    ∧ (classifyLoop things.init sampleThings).ModActions
        = sampleThings.filterMap pickModAction :=
  claimC3 sampleEnvelopes sampleThings rfl


/-! Helpers and claim for C5: the listing decode's actual failure set. -/

theorem listingRootFields_no_data :
    ∀ (flds : List (String × Json)) (l : listing),
      (∀ p ∈ flds, p.1 ≠ "data") → listingRootFields l flds = .ok l := by
  intro flds
  induction flds with
  | nil => intro l _; simp
  | cons kv rest ih =>
    intro l h
    obtain ⟨k, v⟩ := kv
    rw [listingRootFields_other l v rest (h (k, v) (List.mem_cons_self _ _))]
    exact ih l fun p hp => h p (List.mem_cons_of_mem _ hp)

theorem foldFields_thing_skip_cons (t : thing) (k : String) (v : Json)
    (rest : List (String × Json)) (h1 : ¬k = "kind") (h2 : ¬k = "data") :
    foldFields updateThingField t ((k, v) :: rest) =
      foldFields updateThingField t rest := by
  simp [foldFields, updateThingField, h1, h2]

theorem thingSkip_strField (t : thing) (k s : String)
    (rest : List (String × Json)) (h1 : ¬k = "kind") (h2 : ¬k = "data") :
    foldFields updateThingField t (strField k s ++ rest) =
      foldFields updateThingField t rest := by
  unfold strField
  split
  · simp
  · rw [List.singleton_append, foldFields_thing_skip_cons t k _ rest h1 h2]

theorem thingSkip_optTimeField (t : thing) (k : String) (o : Option Timestamp)
    (rest : List (String × Json)) (h1 : ¬k = "kind") (h2 : ¬k = "data") :
    foldFields updateThingField t (optTimeField k o ++ rest) =
      foldFields updateThingField t rest := by
  unfold optTimeField
  split
  · simp
  · rw [List.singleton_append, foldFields_thing_skip_cons t k _ rest h1 h2]

theorem thingSkip_optIntField (t : thing) (k : String) (o : Option Int)
    (rest : List (String × Json)) (h1 : ¬k = "kind") (h2 : ¬k = "data") :
    foldFields updateThingField t (optIntField k o ++ rest) =
      foldFields updateThingField t rest := by
  unfold optIntField
  split
  · simp
  · rw [List.singleton_append, foldFields_thing_skip_cons t k _ rest h1 h2]

/-- A marshalled comment carries no `kind` (nor `data`) member, so the
envelope stage decodes it to the zero `thing`, which the classifier then
skips. -/
theorem decodeThing_marshalComment : ∀ c : Comment,
    decodeThing (marshalComment c) = .ok zeroThing
  | .mk d rc rm => by
    rw [marshalComment_mk]
    show foldFields updateThingField zeroThing _ = .ok zeroThing
    simp only [List.append_assoc, List.cons_append, List.singleton_append,
      List.nil_append]
    repeat first
      | rw [thingSkip_strField _ _ _ _ (by decide) (by decide)]
      | rw [thingSkip_optTimeField _ _ _ _ (by decide) (by decide)]
      | rw [thingSkip_optIntField _ _ _ _ (by decide) (by decide)]
      | rw [foldFields_thing_skip_cons _ _ _ _ (by decide) (by decide)]
    rfl

theorem thingList_marshalCommentList : ∀ cs : List Comment,
    thingList (marshalCommentList cs) = .ok (cs.map fun _ => zeroThing)
  | [] => by simp [thingList]
  | c :: rest => by
    rw [marshalCommentList_cons]
    unfold thingList
    rw [decodeThing_marshalComment c, thingList_marshalCommentList rest]
    simp

theorem classifyThingStep_zeroThing (acc : things) :
    classifyThingStep acc zeroThing = acc := by
  rw [classifyThingStep_eq]
  simp [pickComment, pickMore, pickUser, pickPost, pickSubreddit, pickModAction,
    zeroThing, kindComment, kindMore, kindAccount, kindPost, kindSubreddit,
    kindModAction]

theorem classifyLoop_zeroThings :
    ∀ (l : List Comment) (acc : things),
      classifyLoop acc (l.map fun _ => zeroThing) = acc := by
  intro l
  induction l with
  | nil => intro acc; simp
  | cons c rest ih =>
    intro acc
    rw [List.map_cons, classifyLoop_cons, classifyThingStep_zeroThing]
    exact ih acc

/-- Core of C4: re-decoding the encoding of a non-empty reply container
as a listing's children leaves every bucket empty: the bare comment
objects carry no `kind` discriminator, so every one of them is skipped. -/
theorem marshalled_replies_decode (r : Replies) (h : r.comments ≠ []) :
    things.UnmarshalJSON (Replies.MarshalJSON r) = .ok things.init := by
  rw [Replies.MarshalJSON_eq, if_neg (by simp [h])]
  rw [thingsUnmarshal_arr_ok (thingList_marshalCommentList r.comments)]
  rw [classifyLoop_zeroThings]

/-- A reply container holding the single comment `t1_a`. -/
def sampleReplies : Replies := ⟨[.mk parentData [] none], none⟩

/-- C4 counterexample: encoding a container with one comment and
re-decoding the result as a Listing's children yields zero comments, not
the same one comment — the claim's round trip fails. -/
theorem claimC4_counterexample :
    things.UnmarshalJSON (Replies.MarshalJSON sampleReplies) = .ok things.init
    ∧ things.init.Comments.length = 0
    ∧ sampleReplies.comments.length = 1 :=
  ⟨marshalled_replies_decode sampleReplies (by simp [sampleReplies]), rfl, rfl⟩

/-- C4 corrected: encoding a container with N>0 comments yields a bare
array of comment objects without envelopes, so re-decoding it as a
Listing's children skips every element: the resulting container has zero
comments (not the same N) and no continuation placeholder. -/
theorem claimC4_amended (r : Replies) (h : r.comments ≠ []) :
    things.UnmarshalJSON (Replies.MarshalJSON r) = .ok things.init
    ∧ things.init.Comments = [] ∧ things.init.Mores.head? = none :=
  ⟨marshalled_replies_decode r h, rfl, rfl⟩

/-- C4 witness: the corrected round trip at a concrete one-comment
container. -/
theorem claimC4_witness :
    things.UnmarshalJSON (Replies.MarshalJSON ⟨[childComment], none⟩)
      = .ok things.init
    ∧ things.init.Comments = [] ∧ things.init.Mores.head? = none :=
  claimC4_amended ⟨[childComment], none⟩ (by simp)


/-! Helpers and claim for C1: the aggregate decode's actual behavior. -/

theorem decodePairElems_one_ok {a : Json} {l0 : listing}
    (h : listing.UnmarshalJSON a = .ok l0) :
    decodePairElems [a] = .ok (l0, zeroListing) := by
  show (match listing.UnmarshalJSON a with
        | .error e => Except.error e
        | .ok l0 => .ok (l0, zeroListing)) = _
  rw [h]

theorem decodePairElems_two_ok {a b : Json} {l0 l1 : listing} (rest : List Json)
    (h0 : listing.UnmarshalJSON a = .ok l0)
    (h1 : listing.UnmarshalJSON b = .ok l1) :
    decodePairElems (a :: b :: rest) = .ok (l0, l1) := by
  show (match listing.UnmarshalJSON a with
        | .error e => Except.error e
        | .ok l0 =>
          match listing.UnmarshalJSON b with
          | .error e => Except.error e
          | .ok l1 => .ok (l0, l1)) = _
  rw [h0, h1]

theorem decodePairElems_one_err {a : Json} {e : Unit}
    (h : listing.UnmarshalJSON a = .error e) :
    decodePairElems [a] = .error e := by
  show (match listing.UnmarshalJSON a with
        | .error e => Except.error e
        | .ok l0 => .ok (l0, zeroListing)) = _
  rw [h]

theorem decodePairElems_two_err0 {a : Json} {e : Unit} (b : Json)
    (rest : List Json) (h : listing.UnmarshalJSON a = .error e) :
    decodePairElems (a :: b :: rest) = .error e := by
  show (match listing.UnmarshalJSON a with
        | .error e => Except.error e
        | .ok l0 =>
          match listing.UnmarshalJSON b with
          | .error e => Except.error e
          | .ok l1 => .ok (l0, l1)) = _
  rw [h]

theorem decodePairElems_two_err1 {a b : Json} {l0 : listing} {e : Unit}
    (rest : List Json) (h0 : listing.UnmarshalJSON a = .ok l0)
    (h1 : listing.UnmarshalJSON b = .error e) :
    decodePairElems (a :: b :: rest) = .error e := by
  show (match listing.UnmarshalJSON a with
        | .error e => Except.error e
        | .ok l0 =>
          match listing.UnmarshalJSON b with
          | .error e => Except.error e
          | .ok l1 => .ok (l0, l1)) = _
  rw [h0, h1]

theorem PostAndComments.UnmarshalJSON_err_of_outer {j : Json} {e : Unit}
    (h : PostAndComments.decodeOuter j = .error e) :
    PostAndComments.UnmarshalJSON j = .err := by
  unfold PostAndComments.UnmarshalJSON
  rw [h]

/-- C1 counterexample: the empty JSON array decodes into `[2]listing`
without error (both elements zero-filled), after which reading
`l[0].Posts[0]` panics — a process-fatal failure, not an ordinary
returned decode error as the claim states. -/
theorem claimC1_counterexample :
    PostAndComments.UnmarshalJSON (Json.arr []) = .fatal := by
  simp [PostAndComments.UnmarshalJSON, PostAndComments.decodeOuter,
    decodePairElems, zeroListing, things.init]

/-- C1 corrected: an input that is not a JSON array (and not `null`)
fails with an ordinary returned decode error, as does an array whose
first element — or, after a decodable first element, whose second
element — fails to decode as a listing; but whenever the outer decode
accepts the input (including `null`, a short array, or a two-listing
array) and the first listing holds zero submissions, the decode panics
(process-fatal) instead of returning an error; with at least one
submission it succeeds with the assembled aggregate. -/
theorem claimC1_amended :
    (∀ s, PostAndComments.UnmarshalJSON (.str s) = .err)
    ∧ (∀ n, PostAndComments.UnmarshalJSON (.num n) = .err)
    ∧ (∀ b, PostAndComments.UnmarshalJSON (.bool b) = .err)
    ∧ (∀ flds, PostAndComments.UnmarshalJSON (.obj flds) = .err)
    ∧ (∀ (a : Json) (rest : List Json) (e : Unit),
        listing.UnmarshalJSON a = .error e →
        PostAndComments.UnmarshalJSON (.arr (a :: rest)) = .err)
    ∧ (∀ (a b : Json) (rest : List Json) (l0 : listing) (e : Unit),
        listing.UnmarshalJSON a = .ok l0 →
        listing.UnmarshalJSON b = .error e →
        PostAndComments.UnmarshalJSON (.arr (a :: b :: rest)) = .err)
    ∧ (∀ j, PostAndComments.UnmarshalJSON j = .fatal ↔
        ∃ l0 l1, PostAndComments.decodeOuter j = .ok (l0, l1)
          ∧ l0.things.Posts = [])
    ∧ (∀ (j : Json) (l0 l1 : listing) (p : Post) (ps : List Post),
        PostAndComments.decodeOuter j = .ok (l0, l1) →
        l0.things.Posts = p :: ps →
        PostAndComments.UnmarshalJSON j =
          .ok ⟨p, l1.things.Comments, l1.things.Mores.head?⟩) := by
  refine ⟨?_, ?_, ?_, ?_, ?_, ?_, ?_, ?_⟩
  · intro s; simp [PostAndComments.UnmarshalJSON, PostAndComments.decodeOuter]
  · intro n; simp [PostAndComments.UnmarshalJSON, PostAndComments.decodeOuter]
  · intro b; simp [PostAndComments.UnmarshalJSON, PostAndComments.decodeOuter]
  · intro flds; simp [PostAndComments.UnmarshalJSON, PostAndComments.decodeOuter]
  · intro a rest e h
    cases rest with
    | nil =>
      exact PostAndComments.UnmarshalJSON_err_of_outer
        (show decodePairElems [a] = Except.error e from decodePairElems_one_err h)
    | cons b rest2 =>
      exact PostAndComments.UnmarshalJSON_err_of_outer
        (show decodePairElems (a :: b :: rest2) = Except.error e from
          decodePairElems_two_err0 b rest2 h)
  · intro a b rest l0 e h0 h1
    exact PostAndComments.UnmarshalJSON_err_of_outer
      (show decodePairElems (a :: b :: rest) = Except.error e from
        decodePairElems_two_err1 rest h0 h1)
  · intro j
    unfold PostAndComments.UnmarshalJSON
    cases hd : PostAndComments.decodeOuter j with
    | error e => simp [hd]
    | ok pair =>
      obtain ⟨l0, l1⟩ := pair
      cases hp : l0.things.Posts with
      | nil =>
        simp only [hp]
        constructor
        · intro _; exact ⟨l0, l1, rfl, hp⟩
        · intro _; trivial
      | cons p ps => simp [hp]
  · intro j l0 l1 p ps hd hp
    unfold PostAndComments.UnmarshalJSON
    rw [hd]
    show (match l0.things.Posts with
          | [] => GoResult.fatal
          | p :: _ =>
            GoResult.ok
              (PostAndComments.mk p l1.things.Comments l1.things.Mores.head?)) =
      GoResult.ok (PostAndComments.mk p l1.things.Comments l1.things.Mores.head?)
    rw [hp]

/-- The post of the end-to-end example. -/
def samplePostAbc : Post := { zeroPost with ID := "abc", FullID := "t3_abc" }

/-- Wire form of a listing holding the single submission `t3_abc`. -/
def sampleListingJson : Json :=
  .obj [("data", .obj [("children", .arr [.obj [("kind", .str "t3"),
    ("data", .obj [("id", .str "abc"), ("name", .str "t3_abc")])]]),
    ("after", .null), ("before", .null)])]

/-- The decoded form of `sampleListingJson`. -/
def sampleListing : listing := ⟨⟨[], [], [], [samplePostAbc], [], []⟩, "", ""⟩

theorem sampleListing_decode :
    listing.UnmarshalJSON sampleListingJson = .ok sampleListing := by
  have ht : thingList [.obj [("kind", .str "t3"),
      ("data", .obj [("id", .str "abc"), ("name", .str "t3_abc")])]] =
      .ok [⟨"t3", some (.obj [("id", .str "abc"), ("name", .str "t3_abc")])⟩] := rfl
  have hch : things.UnmarshalJSON (.arr [.obj [("kind", .str "t3"),
      ("data", .obj [("id", .str "abc"), ("name", .str "t3_abc")])]]) =
      .ok ⟨[], [], [], [samplePostAbc], [], []⟩ := by
    rw [thingsUnmarshal_arr_ok ht]
    simp [classifyThingStep, classifyOther, dataUnmarshal, decodePost,
      updatePostField, foldFields, getString, kindComment, kindMore, kindAccount,
      kindPost, kindSubreddit, kindModAction, things.init, zeroPost, samplePostAbc]
  have h1 : listingDataFields zeroListing
      [("children", .arr [.obj [("kind", .str "t3"),
        ("data", .obj [("id", .str "abc"), ("name", .str "t3_abc")])]]),
       ("after", .null), ("before", .null)] = .ok sampleListing := by
    rw [listingDataFields_children_ok _ _ hch]
    rw [listingDataFields_after_null, listingDataFields_before_null,
      listingDataFields_nil]
    rfl
  rw [sampleListingJson, listingUnmarshal_obj,
    listingRootFields_data_obj_ok _ _ h1, listingRootFields_nil]

theorem sampleOuter_decode :
    PostAndComments.decodeOuter (.arr [sampleListingJson]) =
      .ok (sampleListing, zeroListing) := by
  show decodePairElems [sampleListingJson] = _
  exact decodePairElems_one_ok sampleListing_decode

/-- C1 witness: a one-element array holding a listing with one
submission decodes successfully (no error despite the two-element shape
being absent), assembling the post with no comments and no placeholder;
and an array whose first element is not a listing returns an ordinary
error. -/
theorem claimC1_witness :
    (PostAndComments.UnmarshalJSON (.arr [sampleListingJson]) =
      .ok ⟨samplePostAbc, zeroListing.things.Comments,
        zeroListing.things.Mores.head?⟩)
    ∧ PostAndComments.UnmarshalJSON (.arr [.num 7]) = .err :=
  ⟨claimC1_amended.2.2.2.2.2.2.2 (.arr [sampleListingJson]) sampleListing
      zeroListing samplePostAbc [] sampleOuter_decode rfl,
   claimC1_amended.2.2.2.2.1 (.num 7) [] () (listingUnmarshal_num 7)⟩

end Reddit
